import Mathlib

/-!
Verification of the in-memory consensus staging store
(`src/full_node/full_node_store.py`) of the chia-blockchain repository.

The Python source is shallowly embedded: machine integers (`uint8`,
`uint32`, `uint64`, `uint128`, `bytes32`) become `Nat` (no arithmetic in
the store can overflow a 128-bit counter on the inputs considered, and
hashes are opaque identifiers), Python dicts become insertion-ordered
association lists, and fallible code returns a `PyError` alongside the
(possibly partially mutated) store, matching Python's exception
semantics in which raised exceptions do not roll back earlier writes.

Types that the store consumes but whose defining modules are not part of
the supplied sources (`src/types/end_of_slot_bundle.py`,
`src/types/vdf.py`, `src/full_node/sub_block_record.py`,
`src/full_node/signage_point.py`, `src/consensus/pot_iterations.py`,
`src/protocols/timelord_protocol.py`) are modelled from the
specification; each such definition says so in its doc comment.
-/

/-- Python runtime errors that the embedded store operations can raise.
`nonTermination` is a modelling artifact: two source loops walk the
sub-block-record map with no termination guarantee, and the embedding
bounds them with fuel equal to the map size plus one; exhausting the fuel
(only possible on a cyclic record map) is mapped to this error. -/
inductive PyError where
  | attributeError
  | valueError
  | typeError
  | keyError
  | indexError
  | assertionError
  | zeroDivisionError
  | nonTermination
deriving DecidableEq

/-- Lookup in an insertion-ordered association list (a Python dict). -/
def dictGet {α : Type} (d : List (Nat × α)) (k : Nat) : Option α :=
  match d with
  | [] => none
  | (k1, v) :: rest => if k1 = k then some v else dictGet rest k

/-- `dict.get(k, default)`. -/
def dictGetD {α : Type} (d : List (Nat × α)) (k : Nat) (dflt : α) : α :=
  (dictGet d k).getD dflt

/-- `d[k] = v`: replace in place when the key exists (Python keeps the
key's position), append otherwise. -/
def dictInsert {α : Type} (d : List (Nat × α)) (k : Nat) (v : α) : List (Nat × α) :=
  match d with
  | [] => [(k, v)]
  | (k1, v1) :: rest => if k1 = k then (k1, v) :: rest else (k1, v1) :: dictInsert rest k v

/-- The idiom `if k not in d: d[k] = []` followed by `d[k].append(x)`
(source lines 128-130, 137-139, 190-192). -/
def cacheAppend {α : Type} (d : List (Nat × List α)) (k : Nat) (x : α) : List (Nat × List α) :=
  dictInsert d k (dictGetD d k [] ++ [x])

/-- Modelled from the spec: a VDF info (src/types/vdf.py is not in src/).
Per spec §3 it carries a challenge hash and a number of iterations; the
output is kept so that distinct VDFs with equal parameters stay distinct. -/
structure VDFInfo where
  challenge_hash : Nat
  number_of_iterations : Nat
  output : Nat
deriving DecidableEq

/-- Injective encoding of a `VDFInfo` into `Nat`, used by the hash
functions below. -/
def VDFInfo.encode (v : VDFInfo) : Nat :=
  Nat.pair v.challenge_hash (Nat.pair v.number_of_iterations v.output)

/-- Modelled from the spec: a VDF proof (src/types/vdf.py is not in
src/). The spec (§4.1 step 3) treats proof validation as an opaque
judgment against the consensus constants, so validity is carried as a
boolean on the proof object. -/
structure VDFProof where
  valid : Bool
deriving DecidableEq

/-- Modelled from the spec: the challenge-chain end of a sub-slot
(src/types/end_of_slot_bundle.py is not in src/). Spec §3: each chain-end
object carries a VDF info; the EOS identity is its challenge-chain hash. -/
structure ChallengeChainSubSlot where
  challenge_chain_end_of_slot_vdf : VDFInfo
deriving DecidableEq

/-- The source calls `challenge_chain.get_hash()`; hashing is modelled as
an injective (collision-free) encoding of the hashed object's fields,
domain-separated from the other chain-end objects by the leading tag. -/
def ChallengeChainSubSlot.get_hash (c : ChallengeChainSubSlot) : Nat :=
  Nat.pair 1 c.challenge_chain_end_of_slot_vdf.encode

/-- Modelled from the spec: the reward-chain end of a sub-slot. The
source additionally reads a `deficit` off it (line 217). -/
structure RewardChainSubSlot where
  end_of_slot_vdf : VDFInfo
  deficit : Nat
deriving DecidableEq

/-- Hash of the reward-chain end of a sub-slot (see
`ChallengeChainSubSlot.get_hash`). -/
def RewardChainSubSlot.get_hash (r : RewardChainSubSlot) : Nat :=
  Nat.pair 2 (Nat.pair r.end_of_slot_vdf.encode r.deficit)

/-- Modelled from the spec: the infused-challenge-chain end of a
sub-slot. -/
structure InfusedChallengeChainSubSlot where
  infused_challenge_chain_end_of_slot_vdf : VDFInfo
deriving DecidableEq

/-- Hash of the infused-challenge-chain end of a sub-slot. -/
def InfusedChallengeChainSubSlot.get_hash (i : InfusedChallengeChainSubSlot) : Nat :=
  Nat.pair 3 i.infused_challenge_chain_end_of_slot_vdf.encode

/-- Modelled from the spec: the proof bundle of an EOS. The
infused-challenge proof is optional in the source (it is only read when
an infused challenge chain is present). -/
structure SubSlotProofs where
  challenge_chain_slot_proof : VDFProof
  infused_challenge_chain_slot_proof : Option VDFProof
  reward_chain_slot_proof : VDFProof
deriving DecidableEq

/-- Modelled from the spec: an end-of-sub-slot bundle (spec §3): three
parallel chain-end objects, the infused one optional, plus proofs. -/
structure EndOfSubSlotBundle where
  challenge_chain : ChallengeChainSubSlot
  infused_challenge_chain : Option InfusedChallengeChainSubSlot
  reward_chain : RewardChainSubSlot
  proofs : SubSlotProofs
deriving DecidableEq

/-- Modelled from the spec: `get_signage_point_by_index` (line 262) reads
`sub_slot.challenge_chain_hash`, an attribute of the EOS bundle whose
defining module is not in src/; the spec (§4.1) locates slots "by
challenge-chain hash", so it is the hash of the bundle's challenge chain. -/
def EndOfSubSlotBundle.challenge_chain_hash (e : EndOfSubSlotBundle) : Nat :=
  e.challenge_chain.get_hash

/-- Modelled from the spec: a signage point (spec §3): a pair of VDFs
plus proofs; the index-0 sentinel is the value with all four fields
empty, hence every field is optional. -/
structure SignagePoint where
  cc_vdf : Option VDFInfo
  cc_proof : Option VDFProof
  rc_vdf : Option VDFInfo
  rc_proof : Option VDFProof
deriving DecidableEq

/-- Modelled from the spec: consensus constants (spec §3), restricted to
the fields the store reads. `SLOT_TIME_TARGET` feeds the modelled
iteration formulas below. -/
structure ConsensusConstants where
  NUM_CHECKPOINTS_PER_SLOT : Nat
  MIN_SUB_BLOCKS_PER_CHALLENGE_BLOCK : Nat
  SLOT_TIME_TARGET : Nat
  FIRST_CC_CHALLENGE : Nat
deriving DecidableEq

/-- Modelled from the spec: a sub-block record (spec §3), supplied by the
validator and consumed read-only, restricted to the attributes the store
reads. `is_challenge_block` backs the `is_challenge_sub_block` predicate. -/
structure SubBlockRecord where
  height : Nat
  total_iters : Nat
  prev_hash : Nat
  first_in_sub_slot : Bool
  is_challenge_block : Bool
  deficit : Nat
  reward_infusion_new_challenge : Nat
  challenge_block_info_hash : Nat
  finished_challenge_slot_hashes : List Nat
  finished_infused_challenge_slot_hashes : List Nat
  ips : Nat
  required_iters : Nat
deriving DecidableEq

/-- Modelled from the spec: the `is_challenge_sub_block` predicate is
supplied by the validator (spec §3); the constants argument mirrors the
call shape `curr.is_challenge_sub_block(self.constants)` at lines 199/202. -/
def SubBlockRecord.is_challenge_sub_block (r : SubBlockRecord) (_c : ConsensusConstants) : Bool :=
  r.is_challenge_block

/-- Modelled from the spec: a timelord infusion-point VDF message
(src/protocols/timelord_protocol.py is not in src/); the store reads only
`reward_chain_ip_vdf.challenge_hash` (line 127). -/
structure NewInfusionPointVDF where
  reward_chain_ip_vdf : VDFInfo
deriving DecidableEq

/-- A full block, restricted to the single field chain the store reads
when caching it (`reward_chain_sub_block.reward_chain_ip_vdf
.challenge_hash`, line 136). -/
structure RewardChainSubBlockRec where
  reward_chain_ip_vdf : VDFInfo
deriving DecidableEq

/-- See `RewardChainSubBlockRec`. -/
structure FullBlockRec where
  reward_chain_sub_block : RewardChainSubBlockRec
deriving DecidableEq

/-- One entry of the slot ring, following the declared type of
`finished_sub_slots` (line 33):
`Tuple[EndOfSubSlotBundle, Dict[uint8, List[SignagePoint]], uint128]`.
Every entry the source ever stores durably in the ring has exactly this
3-tuple shape (built at lines 225, 312 and 313, always with an empty
dict). -/
structure RingEntry where
  eos : EndOfSubSlotBundle
  sps : List (Nat × List SignagePoint)
  total_iters : Nat
deriving DecidableEq

/-- The store state: the consensus constants handle, the slot ring, and
the four future caches. The tables not touched by any ring operation
(unfinished, candidate, disconnected, seen-unfinished; lines 61-124)
reference only their own dict and are omitted from this state. In the
source the four caches are class attributes (lines 39-48); from the
point of view of a single instance they behave as instance state, which
is what this structure captures — the cross-instance sharing is modelled
separately by `SharedCacheWorld` below. -/
structure FullNodeStore where
  constants : ConsensusConstants
  finished_sub_slots : List RingEntry
  future_eos_cache : List (Nat × List EndOfSubSlotBundle)
  future_sp_cache : List (Nat × List SignagePoint)
  future_ip_cache : List (Nat × List NewInfusionPointVDF)
  future_sb_cache : List (Nat × List FullBlockRec)
deriving DecidableEq

/-- Modelled from the spec: `is_valid` lives in src/types/vdf.py, which
is not in src/; the spec (§4.1 step 3) treats validation as an opaque
check of the proof against the constants and the VDF info, so the
embedded check returns the validity judgment carried by the proof. -/
def VDFProof.is_valid (p : VDFProof) (_c : ConsensusConstants) (_v : VDFInfo) : Bool :=
  p.valid

/-- Modelled from the spec: `calculate_sub_slot_iters` lives in
src/consensus/pot_iterations.py, which is not in src/; the spec (§4.2)
says only that it is a consensus-constants formula of `peak.ips`.
Modelled as iterations-per-second times the slot time target. -/
def calculate_sub_slot_iters (c : ConsensusConstants) (ips : Nat) : Nat :=
  ips * c.SLOT_TIME_TARGET

/-- Modelled from the spec: `calculate_ip_iters` is likewise not in
src/; the spec (§4.2) says only that `ip_iters` is computed from
`(peak.ips, peak.required_iters)`, and the store consumes the value only
through `sps_to_keep`. Modelled as the required iterations reduced into
the sub-slot. -/
def calculate_ip_iters (c : ConsensusConstants) (ips required_iters : Nat) : Nat :=
  required_iters % calculate_sub_slot_iters c ips

/-- `clear_slots` (lines 144-145) on an initialized store. -/
def FullNodeStore.clear_slots (s : FullNodeStore) : FullNodeStore :=
  { s with finished_sub_slots := [] }

/-- `add_to_future_ip` (lines 126-130). -/
def FullNodeStore.add_to_future_ip (s : FullNodeStore) (infusion_point : NewInfusionPointVDF) :
    FullNodeStore :=
  { s with future_ip_cache :=
      cacheAppend s.future_ip_cache infusion_point.reward_chain_ip_vdf.challenge_hash infusion_point }

/-- `get_future_ip` (lines 132-133). -/
def FullNodeStore.get_future_ip (s : FullNodeStore) (rc_challenge_hash : Nat) :
    List NewInfusionPointVDF :=
  dictGetD s.future_ip_cache rc_challenge_hash []

/-- `add_to_future_sb` (lines 135-139). -/
def FullNodeStore.add_to_future_sb (s : FullNodeStore) (sub_block : FullBlockRec) : FullNodeStore :=
  { s with future_sb_cache :=
      (cacheAppend s.future_sb_cache
        sub_block.reward_chain_sub_block.reward_chain_ip_vdf.challenge_hash sub_block) }

/-- The walk at lines 198-200: follow `prev_hash` through the record map
until `first_in_sub_slot` or `is_challenge_sub_block` holds. A missing
key raises `KeyError`; the source loop has no termination guarantee, so
the embedding uses fuel (see `PyError.nonTermination`). -/
def walkBackToChallenge (c : ConsensusConstants) (sub_blocks : List (Nat × SubBlockRecord)) :
    SubBlockRecord → Nat → Except PyError SubBlockRecord
  | _, 0 => .error .nonTermination
  | curr, fuel + 1 =>
    if !curr.first_in_sub_slot && !(curr.is_challenge_sub_block c) then
      match dictGet sub_blocks curr.prev_hash with
      | none => .error .keyError
      | some nxt => walkBackToChallenge c sub_blocks nxt fuel
    else .ok curr

/-- The proof-validation block of `new_finished_sub_slot` (lines
171-181): `ok false` when a proof fails, `ok true` when all pass;
reading the infused-challenge proof raises `AttributeError` when an
infused challenge chain is present but its proof is absent
(`None.is_valid` at line 178). -/
def eosProofsValid (c : ConsensusConstants) (eos : EndOfSubSlotBundle) : Except PyError Bool :=
  if !(eos.proofs.challenge_chain_slot_proof.is_valid c
        eos.challenge_chain.challenge_chain_end_of_slot_vdf) then .ok false
  else if !(eos.proofs.reward_chain_slot_proof.is_valid c eos.reward_chain.end_of_slot_vdf) then
    .ok false
  else
    match eos.infused_challenge_chain with
    | none => .ok true
    | some icc =>
      match eos.proofs.infused_challenge_chain_slot_proof with
      | none => .error .attributeError
      | some p =>
        if !(p.is_valid c icc.infused_challenge_chain_end_of_slot_vdf) then .ok false
        else .ok true

/-- `new_finished_sub_slot` (lines 153-226). The returned store reflects
all writes made before returning or raising. The ring is only ever
appended to (line 225); the deferral branch (lines 190-193) appends the
EOS to `future_eos_cache` under its reward-chain challenge hash. -/
def FullNodeStore.new_finished_sub_slot (s : FullNodeStore) (eos : EndOfSubSlotBundle)
    (sub_blocks : List (Nat × SubBlockRecord)) (peak : SubBlockRecord) :
    FullNodeStore × Except PyError Bool :=
  match s.finished_sub_slots.getLast? with
  | none => (s, .ok false)
  | some last =>
    let last_slot := last.eos
    let last_slot_iters := last.total_iters
    if eos.challenge_chain.challenge_chain_end_of_slot_vdf.challenge_hash ≠
        last_slot.challenge_chain.get_hash then
      (s, .ok false)
    else
      match eosProofsValid s.constants eos with
      | .error e => (s, .error e)
      | .ok false => (s, .ok false)
      | .ok true =>
        let total_iters := last_slot_iters +
          eos.challenge_chain.challenge_chain_end_of_slot_vdf.number_of_iterations
        let accept : FullNodeStore × Except PyError Bool :=
          ({ s with finished_sub_slots := s.finished_sub_slots ++ [⟨eos, [], total_iters⟩] },
           .ok true)
        if peak.total_iters > last_slot_iters then
          -- Peak is in this slot (lines 185-211)
          let rc_challenge := eos.reward_chain.end_of_slot_vdf.challenge_hash
          if peak.reward_infusion_new_challenge ≠ rc_challenge then
            ({ s with future_eos_cache := cacheAppend s.future_eos_cache rc_challenge eos },
             .ok false)
          else if peak.total_iters + eos.reward_chain.end_of_slot_vdf.number_of_iterations ≠
              total_iters then
            (s, .ok false)
          else if peak.deficit < s.constants.MIN_SUB_BLOCKS_PER_CHALLENGE_BLOCK then
            match walkBackToChallenge s.constants sub_blocks peak (sub_blocks.length + 1) with
            | .error e => (s, .error e)
            | .ok curr =>
              -- lines 202-205; `[-1]` on an empty list raises IndexError
              match (if curr.is_challenge_sub_block s.constants then
                       some curr.challenge_block_info_hash
                     else curr.finished_infused_challenge_slot_hashes.getLast?) with
              | none => (s, .error .indexError)
              | some icc_start_challenge_hash =>
                -- line 206 re-tests `peak.deficit < MIN`, always true here;
                -- line 208 reads through `eos.infused_challenge_chain`,
                -- raising AttributeError when it is absent
                match eos.infused_challenge_chain with
                | none => (s, .error .attributeError)
                | some icc =>
                  if icc.infused_challenge_chain_end_of_slot_vdf.challenge_hash ≠
                      icc_start_challenge_hash then
                    (s, .ok false)
                  else accept
          else accept
        else
          -- Empty slot after the peak (lines 212-223)
          if eos.reward_chain.end_of_slot_vdf.challenge_hash ≠
              last_slot.reward_chain.get_hash then
            (s, .ok false)
          else if last_slot.reward_chain.deficit <
              s.constants.MIN_SUB_BLOCKS_PER_CHALLENGE_BLOCK then
            -- lines 219-222 read through two optional attributes, raising
            -- AttributeError when either is absent
            match eos.infused_challenge_chain with
            | none => (s, .error .attributeError)
            | some icc =>
              match last_slot.infused_challenge_chain with
              | none => (s, .error .attributeError)
              | some licc =>
                if icc.infused_challenge_chain_end_of_slot_vdf.challenge_hash ≠
                    licc.get_hash then
                  (s, .ok false)
                else accept
          else accept

/-- `new_signage_point` (lines 228-246). The `assert` at line 240 raises
`AssertionError` outside the index bounds. The loop at line 241
destructures each ring entry as a 4-tuple
`(sub_slot, sps_cc, sps_rc, _)`, but ring entries are 3-tuples (declared
at line 33 and built only at lines 225, 312 and 313), so with a
non-empty ring the first iteration raises
`ValueError: not enough values to unpack` before any hash is compared or
any write happens; with an empty ring the loop body never runs and the
function returns `False`. -/
def FullNodeStore.new_signage_point (s : FullNodeStore) (_challenge_hash : Nat) (index : Nat)
    (_vdf_info_cc : VDFInfo) (_proof_cc : VDFProof) (_vdf_info_rc : VDFInfo)
    (_proof_rc : VDFProof) : FullNodeStore × Except PyError Bool :=
  if !(0 < index && index < s.constants.NUM_CHECKPOINTS_PER_SLOT) then
    (s, .error .assertionError)
  else
    match s.finished_sub_slots with
    | [] => (s, .ok false)
    | _ :: _ => (s, .error .valueError)

/-- The scan at lines 267-270: first signage point at the index whose
reward-chain VDF references `last_rc_infusion`; reading `sp.rc_vdf
.challenge_hash` raises `AttributeError` when the point has no
reward-chain VDF. -/
def findSpByRcInfusion (sps : List SignagePoint) (last_rc_infusion : Nat) :
    Except PyError (Option SignagePoint) :=
  match sps with
  | [] => .ok none
  | sp :: rest =>
    match sp.rc_vdf with
    | none => .error .attributeError
    | some v =>
      if v.challenge_hash = last_rc_infusion then .ok (some sp)
      else findSpByRcInfusion rest last_rc_infusion

/-- The ring scan of `get_signage_point_by_index` (lines 261-271); the
loop destructures entries as 3-tuples, which matches the ring shape. -/
def getSpByIndexScan (entries : List RingEntry) (challenge_hash : Nat) (index : Nat)
    (last_rc_infusion : Nat) : Except PyError (Option SignagePoint) :=
  match entries with
  | [] => .ok none
  | e :: rest =>
    if e.eos.challenge_chain_hash = challenge_hash then
      if index = 0 then .ok (some ⟨none, none, none, none⟩)
      else
        match dictGet e.sps index with
        | none => .ok none
        | some sps_at_index => findSpByRcInfusion sps_at_index last_rc_infusion
    else getSpByIndexScan rest challenge_hash index last_rc_infusion

/-- `get_signage_point_by_index` (lines 258-271). -/
def FullNodeStore.get_signage_point_by_index (s : FullNodeStore) (challenge_hash : Nat)
    (index : Nat) (last_rc_infusion : Nat) : Except PyError (Option SignagePoint) :=
  getSpByIndexScan s.finished_sub_slots challenge_hash index last_rc_infusion

/-- The replay loop of `new_peak` (lines 315-318): retry each cached EOS
in order, returning the first accepted one; the cache itself is never
modified under the replayed key (nothing removes entries), and a raised
error keeps the writes made so far. -/
def FullNodeStore.newPeakReplay (s : FullNodeStore) (eoss : List EndOfSubSlotBundle)
    (sub_blocks : List (Nat × SubBlockRecord)) (peak : SubBlockRecord) :
    FullNodeStore × Except PyError (Option EndOfSubSlotBundle) :=
  match eoss with
  | [] => (s, .ok none)
  | eos :: rest =>
    match s.new_finished_sub_slot eos sub_blocks peak with
    | (s1, .error e) => (s1, .error e)
    | (s1, .ok true) => (s1, .ok (some eos))
    | (s1, .ok false) => s1.newPeakReplay rest sub_blocks peak

/-- Lines 307-318 of `new_peak`: unconditionally clear the ring
(line 309), assert the previous total-iters when a previous sub-slot is
given (line 311; the `AssertionError` fires after the clear), seed the
ring with `[prev_sub_slot?, peak_sub_slot]` carrying empty
signage-point dicts, then run the replay loop over
`future_eos_cache.get(peak.reward_infusion_new_challenge, [])`. -/
def FullNodeStore.newPeakSeedAndReplay (s : FullNodeStore) (peak : SubBlockRecord)
    (peak_sub_slot : EndOfSubSlotBundle) (total_iters : Nat)
    (prev_sub_slot : Option EndOfSubSlotBundle) (prev_sub_slot_total_iters : Option Nat)
    (sub_blocks : List (Nat × SubBlockRecord)) :
    FullNodeStore × Except PyError (Option EndOfSubSlotBundle) :=
  let s1 := s.clear_slots
  match prev_sub_slot with
  | some prev =>
    match prev_sub_slot_total_iters with
    | none => (s1, .error .assertionError)
    | some pit =>
      let s2 := { s1 with finished_sub_slots :=
        [⟨prev, [], pit⟩, ⟨peak_sub_slot, [], total_iters⟩] }
      s2.newPeakReplay (dictGetD s2.future_eos_cache peak.reward_infusion_new_challenge [])
        sub_blocks peak
  | none =>
    let s2 := { s1 with finished_sub_slots := [⟨peak_sub_slot, [], total_iters⟩] }
    s2.newPeakReplay (dictGetD s2.future_eos_cache peak.reward_infusion_new_challenge [])
      sub_blocks peak

/-- `new_peak` (lines 273-318). When `reorg` is false the source first
computes `sps_to_keep` (lines 290-293; the two integer divisions raise
`ZeroDivisionError` on a zero divisor) and then walks the ring at line
295, destructuring each entry as a 4-tuple — but ring entries are
3-tuples (declared line 33, built lines 225/312/313), so with a
non-empty ring the first iteration raises `ValueError` before any state
is written. (Were the shapes aligned, the walk would only build a local
list that line 309 then unconditionally clears, and the loop variable
shadowing the `total_iters` parameter at line 295 would leak into the
seed at line 313.) With an empty ring the walk is a no-op and the
unconditional clear-and-reseed of lines 307-318 runs, exactly as it does
when `reorg` is true. -/
def FullNodeStore.new_peak (s : FullNodeStore) (peak : SubBlockRecord)
    (peak_sub_slot : EndOfSubSlotBundle) (total_iters : Nat)
    (prev_sub_slot : Option EndOfSubSlotBundle) (prev_sub_slot_total_iters : Option Nat)
    (reorg : Bool) (sub_blocks : List (Nat × SubBlockRecord)) :
    FullNodeStore × Except PyError (Option EndOfSubSlotBundle) :=
  if !reorg then
    if s.constants.NUM_CHECKPOINTS_PER_SLOT = 0 then (s, .error .zeroDivisionError)
    else
      let sub_slot_iters := calculate_sub_slot_iters s.constants peak.ips
      let checkpoint_size := sub_slot_iters / s.constants.NUM_CHECKPOINTS_PER_SLOT
      if checkpoint_size = 0 then (s, .error .zeroDivisionError)
      else
        let ip_iters := calculate_ip_iters s.constants peak.ips peak.required_iters
        let _sps_to_keep := ip_iters / checkpoint_size + 1
        match s.finished_sub_slots with
        | [] =>
          s.newPeakSeedAndReplay peak peak_sub_slot total_iters prev_sub_slot
            prev_sub_slot_total_iters sub_blocks
        | _ :: _ => (s, .error .valueError)
  else
    s.newPeakSeedAndReplay peak peak_sub_slot total_iters prev_sub_slot
      prev_sub_slot_total_iters sub_blocks

/-- The walk at lines 334-336: follow `prev_hash` until
`first_in_sub_slot`; fueled like `walkBackToChallenge`. -/
def walkBackToFirstInSubSlot (sub_blocks : List (Nat × SubBlockRecord)) :
    SubBlockRecord → Nat → Except PyError SubBlockRecord
  | _, 0 => .error .nonTermination
  | curr, fuel + 1 =>
    if !curr.first_in_sub_slot then
      match dictGet sub_blocks curr.prev_hash with
      | none => .error .keyError
      | some nxt => walkBackToFirstInSubSlot sub_blocks nxt fuel
    else .ok curr

/-- `get_finished_sub_slots` (lines 320-356). After the anchor hash is
determined (lines 333-339; `finished_challenge_slot_hashes[-1]` raises
`IndexError` on an empty list), the ring walk at line 342 destructures
each ring entry as a 4-tuple while ring entries are 3-tuples, so a
non-empty ring raises `ValueError` at the first entry; with an empty
ring both indices stay `None` and line 349 raises `ValueError`
explicitly. Either way the call raises `ValueError` and the slice at
line 356 is never reached. -/
def FullNodeStore.get_finished_sub_slots (s : FullNodeStore) (prev_sb : Option SubBlockRecord)
    (sub_block_records : List (Nat × SubBlockRecord)) (_pos_challenge_hash : Nat)
    (_extra_sub_slot : Bool) : Except PyError (List EndOfSubSlotBundle) :=
  let final_sub_slot_in_chain : Except PyError Nat :=
    match prev_sb with
    | some pb =>
      match walkBackToFirstInSubSlot sub_block_records pb (sub_block_records.length + 1) with
      | .error e => .error e
      | .ok curr =>
        match curr.finished_challenge_slot_hashes.getLast? with
        | none => .error .indexError
        | some h => .ok h
    | none => .ok s.constants.FIRST_CC_CHALLENGE
  match final_sub_slot_in_chain with
  | .error e => .error e
  | .ok _ => .error .valueError

/-- Adjacent-pair consistency of two ring entries, exactly the spec's
invariants 2 and 3 (§3): the later entry's challenge-chain VDF
references the hash of the earlier entry's challenge chain, and its
cumulative iteration count is the earlier one's plus its own
challenge-chain iteration count. -/
def ringPairConsistent (a b : RingEntry) : Bool :=
  (b.eos.challenge_chain.challenge_chain_end_of_slot_vdf.challenge_hash ==
    a.eos.challenge_chain.get_hash) &&
  (b.total_iters == a.total_iters +
    b.eos.challenge_chain.challenge_chain_end_of_slot_vdf.number_of_iterations)

/-- Every adjacent pair of the ring satisfies `ringPairConsistent`. -/
def ringChainOk : List RingEntry → Bool
  | [] => true
  | [_] => true
  | a :: b :: rest => ringPairConsistent a b && ringChainOk (b :: rest)

/-- `total_iters_at_end` is non-decreasing along the ring. -/
def ringItersNondecreasing : List RingEntry → Bool
  | [] => true
  | [_] => true
  | a :: b :: rest => (a.total_iters ≤ b.total_iters : Bool) && ringItersNondecreasing (b :: rest)

/-- `total_iters_at_end` is strictly increasing along the ring (the
spec's invariant 1 / property P1). -/
def ringItersStrictMono : List RingEntry → Bool
  | [] => true
  | [_] => true
  | a :: b :: rest => (a.total_iters < b.total_iters : Bool) && ringItersStrictMono (b :: rest)

/-- A freshly initialized store over the given constants: empty ring,
empty caches (the state `create` would produce if its initialization
slip did not make it raise; see `FullNodeStore.create`). -/
def FullNodeStore.emptyStore (c : ConsensusConstants) : FullNodeStore :=
  ⟨c, [], [], [], [], []⟩

/-- The amended claim's notion of a consistent peak seed for `new_peak`:
when both a previous sub-slot and its total-iters are supplied, the peak
sub-slot chains on the previous one by challenge-chain hash, the
supplied total-iters is the previous total plus the peak slot's own
challenge-chain iteration count, and the previous total is strictly
below the peak total. No condition otherwise. (The additivity conjunct
is the strengthening over `SeedChainsOnly` that the counterexample for
the original claim forces.) -/
def SeedConsistent (peak_sub_slot : EndOfSubSlotBundle) (total_iters : Nat)
    (prev_sub_slot : Option EndOfSubSlotBundle) (prev_sub_slot_total_iters : Option Nat) : Prop :=
  match prev_sub_slot, prev_sub_slot_total_iters with
  | some prev, some pit =>
    peak_sub_slot.challenge_chain.challenge_chain_end_of_slot_vdf.challenge_hash =
      prev.challenge_chain.get_hash ∧
    total_iters = pit +
      peak_sub_slot.challenge_chain.challenge_chain_end_of_slot_vdf.number_of_iterations ∧
    pit < total_iters
  | _, _ => True

/-- One store operation, as in the source. `new_peak` steps carry the
claim's consistent-seeding hypothesis; all other operations are
unrestricted. The pure getters and the four tables the ring operations
never reference (lines 61-124) are omitted: they read and write only
their own dict and cannot change `finished_sub_slots` or the caches the
ring logic consumes. -/
inductive FullNodeStore.Step : FullNodeStore → FullNodeStore → Prop where
  | new_finished_sub_slot (s : FullNodeStore) (eos : EndOfSubSlotBundle)
      (sub_blocks : List (Nat × SubBlockRecord)) (peak : SubBlockRecord) :
      Step s (s.new_finished_sub_slot eos sub_blocks peak).1
  | new_signage_point (s : FullNodeStore) (challenge_hash index : Nat)
      (vdf_info_cc : VDFInfo) (proof_cc : VDFProof) (vdf_info_rc : VDFInfo)
      (proof_rc : VDFProof) :
      Step s (s.new_signage_point challenge_hash index vdf_info_cc proof_cc vdf_info_rc
        proof_rc).1
  | new_peak (s : FullNodeStore) (peak : SubBlockRecord)
      (peak_sub_slot : EndOfSubSlotBundle) (total_iters : Nat)
      (prev_sub_slot : Option EndOfSubSlotBundle) (prev_sub_slot_total_iters : Option Nat)
      (reorg : Bool) (sub_blocks : List (Nat × SubBlockRecord))
      (hseed : SeedConsistent peak_sub_slot total_iters prev_sub_slot
        prev_sub_slot_total_iters) :
      Step s (s.new_peak peak peak_sub_slot total_iters prev_sub_slot
        prev_sub_slot_total_iters reorg sub_blocks).1
  | clear_slots (s : FullNodeStore) : Step s s.clear_slots
  | add_to_future_ip (s : FullNodeStore) (infusion_point : NewInfusionPointVDF) :
      Step s (s.add_to_future_ip infusion_point)
  | add_to_future_sb (s : FullNodeStore) (sub_block : FullBlockRec) :
      Step s (s.add_to_future_sb sub_block)

/-- States reachable from a fresh store by any sequence of store
operations whose `new_peak` calls are consistently seeded in the amended
sense. -/
def FullNodeStore.Reachable (c : ConsensusConstants) (s : FullNodeStore) : Prop :=
  Relation.ReflTransGen FullNodeStore.Step (FullNodeStore.emptyStore c) s

/-- The original claim's seeding hypothesis, verbatim: `new_peak` called
with chaining sub-slots and `prev_sub_slot_total_iters < total_iters`;
nothing relates the supplied `total_iters` to the peak slot's own
challenge-chain iteration count. -/
def SeedChainsOnly (peak_sub_slot : EndOfSubSlotBundle) (total_iters : Nat)
    (prev_sub_slot : Option EndOfSubSlotBundle) (prev_sub_slot_total_iters : Option Nat) :
    Prop :=
  match prev_sub_slot, prev_sub_slot_total_iters with
  | some prev, some pit =>
    peak_sub_slot.challenge_chain.challenge_chain_end_of_slot_vdf.challenge_hash =
      prev.challenge_chain.get_hash ∧
    pit < total_iters
  | _, _ => True

/-- One store operation under the original claim's hypothesis: identical
to `FullNodeStore.Step` except that `new_peak` steps carry only
`SeedChainsOnly`. Every `Step` is a `StepOrig`, so states reachable in
the amended sense are also reachable in the original sense. -/
inductive FullNodeStore.StepOrig : FullNodeStore → FullNodeStore → Prop where
  | new_finished_sub_slot (s : FullNodeStore) (eos : EndOfSubSlotBundle)
      (sub_blocks : List (Nat × SubBlockRecord)) (peak : SubBlockRecord) :
      StepOrig s (s.new_finished_sub_slot eos sub_blocks peak).1
  | new_signage_point (s : FullNodeStore) (challenge_hash index : Nat)
      (vdf_info_cc : VDFInfo) (proof_cc : VDFProof) (vdf_info_rc : VDFInfo)
      (proof_rc : VDFProof) :
      StepOrig s (s.new_signage_point challenge_hash index vdf_info_cc proof_cc vdf_info_rc
        proof_rc).1
  | new_peak (s : FullNodeStore) (peak : SubBlockRecord)
      (peak_sub_slot : EndOfSubSlotBundle) (total_iters : Nat)
      (prev_sub_slot : Option EndOfSubSlotBundle) (prev_sub_slot_total_iters : Option Nat)
      (reorg : Bool) (sub_blocks : List (Nat × SubBlockRecord))
      (hseed : SeedChainsOnly peak_sub_slot total_iters prev_sub_slot
        prev_sub_slot_total_iters) :
      StepOrig s (s.new_peak peak peak_sub_slot total_iters prev_sub_slot
        prev_sub_slot_total_iters reorg sub_blocks).1
  | clear_slots (s : FullNodeStore) : StepOrig s s.clear_slots
  | add_to_future_ip (s : FullNodeStore) (infusion_point : NewInfusionPointVDF) :
      StepOrig s (s.add_to_future_ip infusion_point)
  | add_to_future_sb (s : FullNodeStore) (sub_block : FullBlockRec) :
      StepOrig s (s.add_to_future_sb sub_block)

/-- States reachable from a fresh store under the original claim's
hypothesis on `new_peak` seeds. -/
def FullNodeStore.ReachableOrig (c : ConsensusConstants) (s : FullNodeStore) : Prop :=
  Relation.ReflTransGen FullNodeStore.StepOrig (FullNodeStore.emptyStore c) s

/-- Appending under a key yields the old list under that key plus the new
element (the dict-append idiom of lines 190-192). -/
theorem dictGetD_cacheAppend_same {α : Type} (d : List (Nat × List α)) (k : Nat) (x : α) :
    dictGetD (cacheAppend d k x) k [] = dictGetD d k [] ++ [x] := by
  induction d with
  | nil => simp [cacheAppend, dictInsert, dictGetD, dictGet]
  | cons p rest ih =>
    obtain ⟨k1, v1⟩ := p
    by_cases hk : k1 = k
    · subst hk
      simp [cacheAppend, dictInsert, dictGetD, dictGet]
    · simp only [cacheAppend, dictInsert, dictGetD, dictGet, hk, if_false] at ih ⊢
      simpa [cacheAppend, dictGetD, hk] using ih

/-- Other keys are untouched by `cacheAppend`. -/
theorem dictGetD_cacheAppend_other {α : Type} (d : List (Nat × List α)) (k k1 : Nat) (x : α)
    (h : k1 ≠ k) : dictGetD (cacheAppend d k x) k1 [] = dictGetD d k1 [] := by
  induction d with
  | nil => simp [cacheAppend, dictInsert, dictGetD, dictGet, Ne.symm h]
  | cons p rest ih =>
    obtain ⟨k2, v2⟩ := p
    by_cases hk : k2 = k
    · subst hk
      have hne : ¬(k2 = k1) := fun hh => h hh.symm
      simp [cacheAppend, dictInsert, dictGetD, dictGet, if_neg hne]
    · by_cases hk1 : k2 = k1
      · subst hk1
        simp [cacheAppend, dictInsert, dictGetD, dictGet, hk]
      · simp only [cacheAppend, dictInsert, dictGetD, dictGet, hk, hk1, if_false,
          if_neg hk, if_neg hk1] at ih ⊢
        simpa [cacheAppend, dictGetD, hk, hk1] using ih

/-- Ring-shape characterization of `new_finished_sub_slot`: the call
either leaves the ring exactly as it was, or appends a single entry that
chains on the old last entry by challenge-chain hash and carries the old
cumulative total plus its own challenge-chain iteration count. -/
theorem new_finished_sub_slot_ring (s : FullNodeStore) (eos : EndOfSubSlotBundle)
    (sub_blocks : List (Nat × SubBlockRecord)) (peak : SubBlockRecord) :
    (s.new_finished_sub_slot eos sub_blocks peak).1.finished_sub_slots =
      s.finished_sub_slots ∨
    ∃ last, s.finished_sub_slots.getLast? = some last ∧
      eos.challenge_chain.challenge_chain_end_of_slot_vdf.challenge_hash =
        last.eos.challenge_chain.get_hash ∧
      (s.new_finished_sub_slot eos sub_blocks peak).1.finished_sub_slots =
        s.finished_sub_slots ++ [⟨eos, [], last.total_iters +
          eos.challenge_chain.challenge_chain_end_of_slot_vdf.number_of_iterations⟩] := by
  unfold FullNodeStore.new_finished_sub_slot
  cases hL : s.finished_sub_slots.getLast? with
  | none => left; rfl
  | some last =>
    dsimp only
    split
    · left; rfl
    · rename_i hchain
      rw [not_ne_iff] at hchain
      split
      · left; rfl
      · left; rfl
      · split
        · split
          · left; rfl
          · split
            · left; rfl
            · split
              · split
                · left; rfl
                · split
                  · left; rfl
                  · split
                    · left; rfl
                    · split
                      · left; rfl
                      · right; exact ⟨last, rfl, hchain, rfl⟩
              · right; exact ⟨last, rfl, hchain, rfl⟩
        · split
          · left; rfl
          · split
            · split
              · left; rfl
              · split
                · left; rfl
                · split
                  · left; rfl
                  · right; exact ⟨last, rfl, hchain, rfl⟩
            · right; exact ⟨last, rfl, hchain, rfl⟩

/-- Appending an entry that is pair-consistent with the old last entry
preserves `ringChainOk`. -/
theorem ringChainOk_append (l : List RingEntry) (e : RingEntry)
    (hl : ringChainOk l = true)
    (hlast : ∀ x, l.getLast? = some x → ringPairConsistent x e = true) :
    ringChainOk (l ++ [e]) = true := by
  induction l with
  | nil => rfl
  | cons a rest ih =>
    cases rest with
    | nil =>
      have := hlast a rfl
      simp [ringChainOk, this]
    | cons b rest2 =>
      have hl2 : ringChainOk (b :: rest2) = true := by
        simp only [ringChainOk, Bool.and_eq_true] at hl
        exact hl.2
      have hp : ringPairConsistent a b = true := by
        simp only [ringChainOk, Bool.and_eq_true] at hl
        exact hl.1
      have happ := ih hl2 (fun x hx => hlast x (by rw [List.getLast?_cons_cons]; exact hx))
      simp only [List.cons_append, ringChainOk, Bool.and_eq_true]
      constructor
      · exact hp
      · simpa using happ

/-- Pair consistency implies the non-strict iteration ordering. -/
theorem ringItersNondecreasing_of_chainOk :
    ∀ l : List RingEntry, ringChainOk l = true → ringItersNondecreasing l = true := by
  intro l
  induction l with
  | nil => intro _; rfl
  | cons a rest ih =>
    cases rest with
    | nil => intro _; rfl
    | cons b rest2 =>
      intro hl
      simp only [ringChainOk, Bool.and_eq_true] at hl
      simp only [ringItersNondecreasing, Bool.and_eq_true]
      constructor
      · have := hl.1
        simp only [ringPairConsistent, Bool.and_eq_true, beq_iff_eq] at this
        simp [this.2, Nat.le_add_right]
      · exact ih hl.2

/-- `new_finished_sub_slot` preserves the chaining invariant. -/
theorem ringChainOk_new_finished_sub_slot (s : FullNodeStore) (eos : EndOfSubSlotBundle)
    (sub_blocks : List (Nat × SubBlockRecord)) (peak : SubBlockRecord)
    (h : ringChainOk s.finished_sub_slots = true) :
    ringChainOk (s.new_finished_sub_slot eos sub_blocks peak).1.finished_sub_slots = true := by
  rcases new_finished_sub_slot_ring s eos sub_blocks peak with heq | ⟨last, hL, hchain, heq⟩
  · rw [heq]; exact h
  · rw [heq]
    apply ringChainOk_append _ _ h
    intro x hx
    rw [hL] at hx
    cases hx
    simp [ringPairConsistent, hchain]

/-- `new_signage_point` never changes the store: it either asserts,
returns false on an empty ring, or raises on the 4-tuple destructuring,
all before any write. -/
theorem new_signage_point_fst (s : FullNodeStore) (challenge_hash index : Nat)
    (vdf_info_cc : VDFInfo) (proof_cc : VDFProof) (vdf_info_rc : VDFInfo) (proof_rc : VDFProof) :
    (s.new_signage_point challenge_hash index vdf_info_cc proof_cc vdf_info_rc proof_rc).1 =
      s := by
  unfold FullNodeStore.new_signage_point
  split
  · rfl
  · split <;> rfl

/-- The replay loop preserves the chaining invariant. -/
theorem ringChainOk_newPeakReplay (eoss : List EndOfSubSlotBundle) (s : FullNodeStore)
    (sub_blocks : List (Nat × SubBlockRecord)) (peak : SubBlockRecord)
    (h : ringChainOk s.finished_sub_slots = true) :
    ringChainOk (s.newPeakReplay eoss sub_blocks peak).1.finished_sub_slots = true := by
  induction eoss generalizing s with
  | nil => exact h
  | cons eos rest ih =>
    unfold FullNodeStore.newPeakReplay
    split
    · rename_i s1 e heq
      have := ringChainOk_new_finished_sub_slot s eos sub_blocks peak h
      rw [heq] at this
      exact this
    · rename_i s1 heq
      have := ringChainOk_new_finished_sub_slot s eos sub_blocks peak h
      rw [heq] at this
      exact this
    · rename_i s1 heq
      have h1 := ringChainOk_new_finished_sub_slot s eos sub_blocks peak h
      rw [heq] at h1
      exact ih s1 h1

/-- Seeding and replaying under a consistent seed yields a chained ring. -/
theorem ringChainOk_newPeakSeedAndReplay (s : FullNodeStore) (peak : SubBlockRecord)
    (peak_sub_slot : EndOfSubSlotBundle) (total_iters : Nat)
    (prev_sub_slot : Option EndOfSubSlotBundle) (prev_sub_slot_total_iters : Option Nat)
    (sub_blocks : List (Nat × SubBlockRecord))
    (hseed : SeedConsistent peak_sub_slot total_iters prev_sub_slot prev_sub_slot_total_iters) :
    ringChainOk (s.newPeakSeedAndReplay peak peak_sub_slot total_iters prev_sub_slot
      prev_sub_slot_total_iters sub_blocks).1.finished_sub_slots = true := by
  unfold FullNodeStore.newPeakSeedAndReplay
  cases prev_sub_slot with
  | none =>
    apply ringChainOk_newPeakReplay
    rfl
  | some prev =>
    cases prev_sub_slot_total_iters with
    | none => rfl
    | some pit =>
      apply ringChainOk_newPeakReplay
      obtain ⟨h1, h2, _⟩ := hseed
      simp [ringChainOk, ringPairConsistent, h1, h2]

/-- `new_peak` with a consistent seed preserves the chaining invariant. -/
theorem ringChainOk_new_peak (s : FullNodeStore) (peak : SubBlockRecord)
    (peak_sub_slot : EndOfSubSlotBundle) (total_iters : Nat)
    (prev_sub_slot : Option EndOfSubSlotBundle) (prev_sub_slot_total_iters : Option Nat)
    (reorg : Bool) (sub_blocks : List (Nat × SubBlockRecord))
    (hseed : SeedConsistent peak_sub_slot total_iters prev_sub_slot prev_sub_slot_total_iters)
    (h : ringChainOk s.finished_sub_slots = true) :
    ringChainOk (s.new_peak peak peak_sub_slot total_iters prev_sub_slot
      prev_sub_slot_total_iters reorg sub_blocks).1.finished_sub_slots = true := by
  unfold FullNodeStore.new_peak
  have hs := ringChainOk_newPeakSeedAndReplay s peak peak_sub_slot total_iters
    prev_sub_slot prev_sub_slot_total_iters sub_blocks hseed
  repeat' (first | split | dsimp only)
  all_goals first | exact h | exact hs

/-- Every store operation preserves the chaining invariant. -/
theorem ringChainOk_step (s s1 : FullNodeStore) (hstep : FullNodeStore.Step s s1)
    (h : ringChainOk s.finished_sub_slots = true) :
    ringChainOk s1.finished_sub_slots = true := by
  cases hstep with
  | new_finished_sub_slot eos sub_blocks peak =>
    exact ringChainOk_new_finished_sub_slot s eos sub_blocks peak h
  | new_signage_point challenge_hash index vdf_info_cc proof_cc vdf_info_rc proof_rc =>
    rw [new_signage_point_fst]
    exact h
  | new_peak peak peak_sub_slot total_iters prev_sub_slot prev_sub_slot_total_iters
      reorg sub_blocks hseed =>
    exact ringChainOk_new_peak s peak peak_sub_slot total_iters prev_sub_slot
      prev_sub_slot_total_iters reorg sub_blocks hseed h
  | clear_slots => rfl
  | add_to_future_ip infusion_point => exact h
  | add_to_future_sb sub_block => exact h

/-- Concrete consensus constants used by the concrete scenarios: 32
checkpoints per slot, challenge-block threshold 16, slot time target
300, genesis challenge 0. -/
def sampleConstants : ConsensusConstants := ⟨32, 16, 300, 0⟩

/-- A concrete end-of-sub-slot bundle seeding the ring (the peak's
sub-slot). -/
def sampleSlot0 : EndOfSubSlotBundle :=
  { challenge_chain := ⟨⟨5, 100, 6⟩⟩
    infused_challenge_chain := none
    reward_chain := { end_of_slot_vdf := ⟨7, 100, 8⟩, deficit := 16 }
    proofs := ⟨⟨true⟩, none, ⟨true⟩⟩ }

/-- A concrete peak record whose infusion produced reward-chain
challenge 9, with total iterations 900 (inside `sampleSlot0`). -/
def samplePeak0 : SubBlockRecord := ⟨0, 900, 0, false, false, 16, 9, 0, [], [], 64, 2700⟩

/-- A concrete peak record with total iterations 500, i.e. before the
end of the seeded slot, so that a following EOS is an empty slot after
the peak. -/
def samplePeakLow : SubBlockRecord := ⟨1, 500, 0, false, false, 16, 9, 0, [], [], 64, 2700⟩

/-- The store after consistently seeding a fresh store with
`sampleSlot0` at cumulative total 1000. -/
def sampleSeedStore : FullNodeStore :=
  ((FullNodeStore.emptyStore sampleConstants).new_peak samplePeak0 sampleSlot0 1000
    none none true []).1

/-- An EOS that chains on `sampleSlot0` with 100 challenge-chain
iterations, valid proofs, no infused challenge chain. -/
def sampleEos100 : EndOfSubSlotBundle :=
  { challenge_chain := ⟨⟨sampleSlot0.challenge_chain.get_hash, 100, 13⟩⟩
    infused_challenge_chain := none
    reward_chain := ⟨⟨sampleSlot0.reward_chain.get_hash, 50, 14⟩, 16⟩
    proofs := ⟨⟨true⟩, none, ⟨true⟩⟩ }

/-- An EOS that chains on `sampleSlot0` but declares zero challenge-chain
iterations, with valid proofs. -/
def sampleEosZero : EndOfSubSlotBundle :=
  { challenge_chain := ⟨⟨sampleSlot0.challenge_chain.get_hash, 0, 11⟩⟩
    infused_challenge_chain := none
    reward_chain := ⟨⟨sampleSlot0.reward_chain.get_hash, 50, 12⟩, 16⟩
    proofs := ⟨⟨true⟩, none, ⟨true⟩⟩ }

/-- The seeded store after accepting `sampleEos100`. -/
def sampleGrownStore : FullNodeStore :=
  (sampleSeedStore.new_finished_sub_slot sampleEos100 [] samplePeakLow).1

/-- The seeded store after accepting the zero-iteration EOS. -/
def zeroIterStore : FullNodeStore :=
  (sampleSeedStore.new_finished_sub_slot sampleEosZero [] samplePeakLow).1

/-- C2 (amended): in every state reachable by any sequence of store
operations from a fresh store whose `new_peak` calls are consistently
seeded — chaining, previous total strictly below the supplied total,
and (the strengthening part (a) of the counterexample forces) the
supplied total equal to the previous total plus the peak slot's own
challenge-chain iterations — adjacent slot-ring entries chain by
challenge-chain hash, each entry's `total_iters_at_end` equals the
previous entry's plus its own challenge-chain `number_of_iterations`,
and consequently `total_iters_at_end` is non-decreasing across the
ring (the weakening from the original strict increase that part (b) of
the counterexample forces: an accepted EOS may declare zero
challenge-chain iterations). -/
theorem reachable_ring_chain_invariants (c : ConsensusConstants) (s : FullNodeStore)
    (h : FullNodeStore.Reachable c s) :
    ringChainOk s.finished_sub_slots = true ∧
    ringItersNondecreasing s.finished_sub_slots = true := by
  unfold FullNodeStore.Reachable at h
  have hchain : ringChainOk s.finished_sub_slots = true := by
    induction h with
    | refl => rfl
    | tail hab hbc ih => exact ringChainOk_step _ _ hbc ih
  exact ⟨hchain, ringItersNondecreasing_of_chainOk _ hchain⟩

/-- C2 witness: a concrete reachable two-entry ring satisfies the
invariants. -/
theorem reachable_ring_chain_invariants_witness :
    ringChainOk sampleGrownStore.finished_sub_slots = true ∧
    ringItersNondecreasing sampleGrownStore.finished_sub_slots = true :=
  reachable_ring_chain_invariants sampleConstants sampleGrownStore
    (Relation.ReflTransGen.tail
      (Relation.ReflTransGen.single
        (FullNodeStore.Step.new_peak (FullNodeStore.emptyStore sampleConstants) samplePeak0
          sampleSlot0 1000 none none true [] True.intro))
      (FullNodeStore.Step.new_finished_sub_slot sampleSeedStore sampleEos100 [] samplePeakLow))

/-- A peak sub-slot that chains on `sampleSlot0` and declares 60
challenge-chain iterations. -/
def samplePeakSlotP : EndOfSubSlotBundle :=
  { challenge_chain := ⟨⟨sampleSlot0.challenge_chain.get_hash, 60, 31⟩⟩
    infused_challenge_chain := none
    reward_chain := ⟨⟨30, 50, 32⟩, 16⟩
    proofs := ⟨⟨true⟩, none, ⟨true⟩⟩ }

/-- The store after a `new_peak` seed satisfying the original claim's
hypothesis — `samplePeakSlotP` chains on `sampleSlot0` and the previous
total 100 is strictly below the supplied total 150 — while 150 differs
from 100 plus the peak slot's 60 challenge-chain iterations. -/
def badSeedStore : FullNodeStore :=
  ((FullNodeStore.emptyStore sampleConstants).new_peak samplePeak0 samplePeakSlotP 150
    (some sampleSlot0) (some 100) true []).1

/-- C2 counterexample: the claim as stated fails in two independent
ways, each at a state reachable under the claim's own seeding
hypothesis (`ReachableOrig`, chaining sub-slots with
`prev_sub_slot_total_iters < total_iters`). (a) A seed whose supplied
total (150) is not the previous total (100) plus the peak slot's own
challenge-chain iterations (60) yields a ring violating the claimed
additivity even though its totals are strictly increasing — forcing the
amendment to require additivity of the seed. (b) A store seeded with no
previous sub-slot that then accepts an EOS declaring zero
challenge-chain iterations (proofs validating) reaches a ring whose
adjacent totals are equal even though chaining and additivity hold
there — forcing the amendment to weaken strict increase to
non-decreasing. -/
theorem original_ring_invariants_fail_reachably :
    (FullNodeStore.ReachableOrig sampleConstants badSeedStore ∧
      ringChainOk badSeedStore.finished_sub_slots = false ∧
      ringItersStrictMono badSeedStore.finished_sub_slots = true) ∧
    (FullNodeStore.ReachableOrig sampleConstants zeroIterStore ∧
      ringChainOk zeroIterStore.finished_sub_slots = true ∧
      ringItersStrictMono zeroIterStore.finished_sub_slots = false) :=
  ⟨⟨Relation.ReflTransGen.single
      (FullNodeStore.StepOrig.new_peak (FullNodeStore.emptyStore sampleConstants) samplePeak0
        samplePeakSlotP 150 (some sampleSlot0) (some 100) true [] ⟨rfl, by decide⟩),
    by rfl, by rfl⟩,
   ⟨Relation.ReflTransGen.tail
      (Relation.ReflTransGen.single
        (FullNodeStore.StepOrig.new_peak (FullNodeStore.emptyStore sampleConstants) samplePeak0
          sampleSlot0 1000 none none true [] True.intro))
      (FullNodeStore.StepOrig.new_finished_sub_slot sampleSeedStore sampleEosZero []
        samplePeakLow),
    by rfl, by rfl⟩⟩

/-- The proof-validation block accepts when the two mandatory proofs
validate and, if an infused challenge chain is present, its proof exists
and validates. -/
theorem eosProofsValid_ok (c : ConsensusConstants) (eos : EndOfSubSlotBundle)
    (hcc : eos.proofs.challenge_chain_slot_proof.is_valid c
      eos.challenge_chain.challenge_chain_end_of_slot_vdf = true)
    (hrc : eos.proofs.reward_chain_slot_proof.is_valid c eos.reward_chain.end_of_slot_vdf = true)
    (hicc : ∀ icc, eos.infused_challenge_chain = some icc →
      ∃ p, eos.proofs.infused_challenge_chain_slot_proof = some p ∧
        p.is_valid c icc.infused_challenge_chain_end_of_slot_vdf = true) :
    eosProofsValid c eos = .ok true := by
  unfold eosProofsValid
  rw [hcc, hrc]
  simp only [Bool.not_true, Bool.false_eq_true, if_false]
  cases hic : eos.infused_challenge_chain with
  | none => rfl
  | some icc =>
    obtain ⟨p, hp1, hp2⟩ := hicc icc hic
    rw [hp1]
    dsimp only
    rw [hp2]
    rfl

/-- C3: an EOS that chains on the last ring entry, passes all VDF proof
validation, whose slot contains the peak, but whose reward-chain
challenge differs from the peak's `reward_infusion_new_challenge`, is
deferred: `new_finished_sub_slot` returns false, appends exactly that
EOS to `future_eos_cache` under the EOS reward-chain challenge hash, and
leaves the ring unchanged. -/
theorem new_finished_sub_slot_defers_on_unknown_infusion (s : FullNodeStore)
    (eos : EndOfSubSlotBundle) (sub_blocks : List (Nat × SubBlockRecord))
    (peak : SubBlockRecord) (last : RingEntry)
    (hlast : s.finished_sub_slots.getLast? = some last)
    (hchain : eos.challenge_chain.challenge_chain_end_of_slot_vdf.challenge_hash =
      last.eos.challenge_chain.get_hash)
    (hcc : eos.proofs.challenge_chain_slot_proof.is_valid s.constants
      eos.challenge_chain.challenge_chain_end_of_slot_vdf = true)
    (hrc : eos.proofs.reward_chain_slot_proof.is_valid s.constants
      eos.reward_chain.end_of_slot_vdf = true)
    (hicc : ∀ icc, eos.infused_challenge_chain = some icc →
      ∃ p, eos.proofs.infused_challenge_chain_slot_proof = some p ∧
        p.is_valid s.constants icc.infused_challenge_chain_end_of_slot_vdf = true)
    (hpeak : last.total_iters < peak.total_iters)
    (hdiff : peak.reward_infusion_new_challenge ≠
      eos.reward_chain.end_of_slot_vdf.challenge_hash) :
    s.new_finished_sub_slot eos sub_blocks peak =
      ({ s with future_eos_cache := (cacheAppend s.future_eos_cache
          eos.reward_chain.end_of_slot_vdf.challenge_hash eos) }, .ok false) ∧
    (s.new_finished_sub_slot eos sub_blocks peak).1.finished_sub_slots =
      s.finished_sub_slots ∧
    dictGetD (s.new_finished_sub_slot eos sub_blocks peak).1.future_eos_cache
        eos.reward_chain.end_of_slot_vdf.challenge_hash [] =
      dictGetD s.future_eos_cache eos.reward_chain.end_of_slot_vdf.challenge_hash []
        ++ [eos] := by
  have hpv := eosProofsValid_ok s.constants eos hcc hrc hicc
  unfold FullNodeStore.new_finished_sub_slot
  rw [hlast]
  dsimp only
  rw [if_neg (not_not_intro hchain), hpv]
  dsimp only
  rw [if_pos hpeak, if_pos hdiff]
  exact ⟨rfl, rfl, dictGetD_cacheAppend_same _ _ _⟩

/-- An EOS that chains on `sampleSlot0` but whose reward chain references
challenge 77, unknown to the sample peaks. -/
def sampleEosOtherRc : EndOfSubSlotBundle :=
  { challenge_chain := ⟨⟨sampleSlot0.challenge_chain.get_hash, 100, 21⟩⟩
    infused_challenge_chain := none
    reward_chain := ⟨⟨77, 50, 22⟩, 16⟩
    proofs := ⟨⟨true⟩, none, ⟨true⟩⟩ }

/-- A concrete peak record past the end of the seeded slot (total
iterations 1500 against a slot ending at 1000). -/
def samplePeakHigh : SubBlockRecord := ⟨2, 1500, 0, false, false, 16, 9, 0, [], [], 64, 2700⟩

/-- C3 witness: the deferral at a concrete seeded store. -/
theorem new_finished_sub_slot_defers_witness :
    (sampleSeedStore.new_finished_sub_slot sampleEosOtherRc [] samplePeakHigh).2 =
      .ok false ∧
    (sampleSeedStore.new_finished_sub_slot sampleEosOtherRc []
      samplePeakHigh).1.finished_sub_slots = sampleSeedStore.finished_sub_slots ∧
    dictGetD (sampleSeedStore.new_finished_sub_slot sampleEosOtherRc []
        samplePeakHigh).1.future_eos_cache
      sampleEosOtherRc.reward_chain.end_of_slot_vdf.challenge_hash [] =
      [sampleEosOtherRc] := by
  have h := new_finished_sub_slot_defers_on_unknown_infusion sampleSeedStore sampleEosOtherRc
    [] samplePeakHigh ⟨sampleSlot0, [], 1000⟩ rfl rfl rfl rfl
    (fun icc hic => Option.noConfusion hic) (by decide) (by decide)
  refine ⟨by rw [h.1], h.2.1, ?_⟩
  rw [h.2.2]
  rfl

/-- C4: an EOS whose challenge-chain VDF does not reference the hash of
the last ring entry's challenge chain — in particular whenever the ring
is empty — is rejected with no change at all to the store. -/
theorem new_finished_sub_slot_rejects_non_chaining (s : FullNodeStore)
    (eos : EndOfSubSlotBundle) (sub_blocks : List (Nat × SubBlockRecord))
    (peak : SubBlockRecord)
    (h : ∀ last, s.finished_sub_slots.getLast? = some last →
      eos.challenge_chain.challenge_chain_end_of_slot_vdf.challenge_hash ≠
        last.eos.challenge_chain.get_hash) :
    s.new_finished_sub_slot eos sub_blocks peak = (s, .ok false) := by
  unfold FullNodeStore.new_finished_sub_slot
  cases hL : s.finished_sub_slots.getLast? with
  | none => rfl
  | some last =>
    dsimp only
    rw [if_pos (h last hL)]

/-- C4 witness: rejection on the empty ring, store untouched. -/
theorem new_finished_sub_slot_rejects_witness :
    (FullNodeStore.emptyStore sampleConstants).new_finished_sub_slot sampleEos100 []
      samplePeak0 = (FullNodeStore.emptyStore sampleConstants, .ok false) :=
  new_finished_sub_slot_rejects_non_chaining (FullNodeStore.emptyStore sampleConstants)
    sampleEos100 [] samplePeak0 (fun _last hl => Option.noConfusion hl)

/-- A concrete signage point with all four components present. -/
def sampleSp : SignagePoint := ⟨some ⟨1, 2, 3⟩, some ⟨true⟩, some ⟨4, 5, 6⟩, some ⟨true⟩⟩

/-- A store whose ring holds `sampleSlot0` with signage points stored at
indices 1 and 2 of its table. -/
def populatedStore : FullNodeStore :=
  { constants := sampleConstants
    finished_sub_slots := [⟨sampleSlot0, [(1, [sampleSp]), (2, [sampleSp])], 1000⟩]
    future_eos_cache := []
    future_sp_cache := []
    future_ip_cache := []
    future_sb_cache := [] }

/-- C1: `new_peak` with `reorg = false` on a ring containing the peak
sub-slot does not truncate-and-keep anything: it raises `ValueError`
destructuring the 3-tuple ring entry as a 4-tuple at line 295, leaving
the store unchanged, with `sps_to_keep = 5` for this peak (and had the
shapes matched, lines 307-313 would still have cleared the ring and
reseeded it with empty signage-point dicts). -/
theorem new_peak_truncation_path_raises :
    populatedStore.new_peak samplePeak0 sampleSlot0 1000 none none false [] =
      (populatedStore, .error .valueError) ∧
    calculate_ip_iters sampleConstants samplePeak0.ips samplePeak0.required_iters /
      (calculate_sub_slot_iters sampleConstants samplePeak0.ips /
        sampleConstants.NUM_CHECKPOINTS_PER_SLOT) + 1 = 5 :=
  ⟨rfl, rfl⟩

/-- C5: `new_signage_point` on a store whose ring contains a slot
matching the given challenge hash (at an in-range index) does not store
the signage point: it raises `ValueError` destructuring the 3-tuple ring
entry as a 4-tuple at line 241, before any write. -/
theorem new_signage_point_raises_on_nonempty_ring :
    populatedStore.new_signage_point sampleSlot0.challenge_chain.get_hash 1
      ⟨1, 2, 3⟩ ⟨true⟩ ⟨4, 5, 6⟩ ⟨true⟩ = (populatedStore, .error .valueError) :=
  rfl

/-- A store holding one deferred EOS under key 9 in its
`future_eos_cache` and nothing else. -/
def deferredCacheStore : FullNodeStore :=
  { constants := sampleConstants
    finished_sub_slots := []
    future_eos_cache := [(9, [sampleEosOtherRc])]
    future_sp_cache := []
    future_ip_cache := []
    future_sb_cache := [] }

/-- C6: a `new_peak` that adopts a peak whose
`reward_infusion_new_challenge` equals a defer key does not drain the
cache: the replay loop (lines 315-318) never removes entries, so the
deferred EOS (here rejected on replay because it does not chain on the
new peak slot) is still cached under its key after the call. -/
theorem new_peak_replay_leaves_cache_entries :
    (deferredCacheStore.new_peak samplePeak0 sampleSlot0 1000 none none true []).2 =
      .ok none ∧
    dictGetD (deferredCacheStore.new_peak samplePeak0 sampleSlot0 1000 none none true
      []).1.future_eos_cache 9 [] = [sampleEosOtherRc] :=
  ⟨rfl, rfl⟩

/-- A distinct EOS bundle per index `n`, for multi-slot rings. -/
def mkSlot (n : Nat) : EndOfSubSlotBundle :=
  { challenge_chain := ⟨⟨n, 100, n⟩⟩
    infused_challenge_chain := none
    reward_chain := ⟨⟨n + 1, 100, n⟩, 16⟩
    proofs := ⟨⟨true⟩, none, ⟨true⟩⟩ }

/-- A store with five ring slots at indices 0..4. -/
def fiveSlotStore : FullNodeStore :=
  { constants := sampleConstants
    finished_sub_slots := [⟨mkSlot 10, [], 100⟩, ⟨mkSlot 11, [], 200⟩, ⟨mkSlot 12, [], 300⟩,
      ⟨mkSlot 13, [], 400⟩, ⟨mkSlot 14, [], 500⟩]
    future_eos_cache := []
    future_sp_cache := []
    future_ip_cache := []
    future_sb_cache := [] }

/-- A parent sub-block that is first in its sub-slot and whose last
finished challenge slot is ring slot 1. -/
def sliceAnchorSb : SubBlockRecord :=
  ⟨3, 450, 0, true, false, 16, 9, 0, [(mkSlot 11).challenge_chain.get_hash], [], 64, 2700⟩

/-- C7: `get_finished_sub_slots` never returns the slice: on the claim
scenario (ring slots 0..4, anchor ending at slot 1, positional hash at
slot 3) it raises `ValueError` destructuring the 3-tuple ring entries as
4-tuples at line 342, for both values of `extra_sub_slot`, instead of
returning slots [2,3] respectively [2,3,4]. -/
theorem get_finished_sub_slots_raises :
    fiveSlotStore.get_finished_sub_slots (some sliceAnchorSb) []
      (mkSlot 13).challenge_chain.get_hash false = .error .valueError ∧
    fiveSlotStore.get_finished_sub_slots (some sliceAnchorSb) []
      (mkSlot 13).challenge_chain.get_hash true = .error .valueError :=
  ⟨rfl, rfl⟩

/-- The ring scan of `get_signage_point_by_index` returns the sentinel
signage point at index 0 whenever some ring entry matches the challenge
hash. -/
theorem getSpByIndexScan_zero (l : List RingEntry) (H r : Nat)
    (h : ∃ e ∈ l, e.eos.challenge_chain_hash = H) :
    getSpByIndexScan l H 0 r = .ok (some ⟨none, none, none, none⟩) := by
  induction l with
  | nil => obtain ⟨e, he, _⟩ := h; cases he
  | cons a rest ih =>
    unfold getSpByIndexScan
    by_cases hA : a.eos.challenge_chain_hash = H
    · rw [if_pos hA]
      rfl
    · rw [if_neg hA]
      apply ih
      obtain ⟨e, he, hEq⟩ := h
      cases he with
      | head => exact absurd hEq hA
      | tail _ hmem => exact ⟨e, hmem, hEq⟩

/-- C8 (amended): `get_signage_point_by_index` at index 0 returns the
empty-sentinel signage point whenever the ring contains a slot whose
challenge-chain hash equals the given hash, regardless of table
contents; when no ring slot matches, it returns none instead (see the
counterexample). -/
theorem get_signage_point_by_index_zero_sentinel (s : FullNodeStore) (H r : Nat)
    (h : ∃ e ∈ s.finished_sub_slots, e.eos.challenge_chain_hash = H) :
    s.get_signage_point_by_index H 0 r = .ok (some ⟨none, none, none, none⟩) :=
  getSpByIndexScan_zero s.finished_sub_slots H r h

/-- C8 witness: index 0 on a matching slot of a populated store. -/
theorem get_signage_point_by_index_zero_sentinel_witness :
    populatedStore.get_signage_point_by_index sampleSlot0.challenge_chain.get_hash 0 123 =
      .ok (some ⟨none, none, none, none⟩) :=
  get_signage_point_by_index_zero_sentinel populatedStore
    sampleSlot0.challenge_chain.get_hash 123
    ⟨⟨sampleSlot0, [(1, [sampleSp]), (2, [sampleSp])], 1000⟩, List.mem_singleton_self _, rfl⟩

/-- C8 counterexample: with no matching slot the call returns none, not
the empty sentinel, so the unconditional claim fails at the empty store. -/
theorem get_signage_point_by_index_zero_without_slot :
    (FullNodeStore.emptyStore sampleConstants).get_signage_point_by_index 5 0 7 =
      .ok none ∧
    (Except.ok (none : Option SignagePoint) : Except PyError (Option SignagePoint)) ≠
      Except.ok (some ⟨none, none, none, none⟩) :=
  ⟨rfl, fun h => Except.noConfusion h (fun h2 => Option.noConfusion h2)⟩

/-- The four future caches as bound at class level in the source (lines
39-48): `future_eos_cache`, `future_sp_cache`, `future_ip_cache`,
`future_sb_cache` are assigned in the class body, and no code path —
`create` (lines 50-59) included — ever assigns any of them on an
instance, so in Python every `self.future_*_cache` read and in-place
write from every instance resolves to these four single class-level
dicts. -/
structure FutureCaches where
  future_eos_cache : List (Nat × List EndOfSubSlotBundle)
  future_sp_cache : List (Nat × List SignagePoint)
  future_ip_cache : List (Nat × List NewInfusionPointVDF)
  future_sb_cache : List (Nat × List FullBlockRec)
deriving DecidableEq

/-- The attribute state relevant to cross-instance cache behaviour: the
single shared class-level cache object. Instances carry no own copy of
any cache (see `FutureCaches`), which is why the instance identifier
parameters of the operations below select nothing. -/
structure SharedCacheWorld where
  classCaches : FutureCaches
deriving DecidableEq

/-- `add_to_future_ip` (lines 126-130) executed on the instance
`instance_id`: the in-place dict write lands in the class-level cache. -/
def SharedCacheWorld.add_to_future_ip_on (w : SharedCacheWorld) (_instance_id : Nat)
    (infusion_point : NewInfusionPointVDF) : SharedCacheWorld :=
  { w with classCaches := { w.classCaches with future_ip_cache :=
      (cacheAppend w.classCaches.future_ip_cache
        infusion_point.reward_chain_ip_vdf.challenge_hash infusion_point) } }

/-- `get_future_ip` (lines 132-133) executed on the instance
`instance_id`: the read comes from the class-level cache. -/
def SharedCacheWorld.get_future_ip_on (w : SharedCacheWorld) (_instance_id : Nat)
    (rc_challenge_hash : Nat) : List NewInfusionPointVDF :=
  dictGetD w.classCaches.future_ip_cache rc_challenge_hash []

/-- A world with both instances fresh and all class caches empty. -/
def emptySharedWorld : SharedCacheWorld := ⟨⟨[], [], [], []⟩⟩

/-- A concrete infusion-point message keyed by challenge 7. -/
def sampleIp : NewInfusionPointVDF := ⟨⟨7, 50, 3⟩⟩

/-- C9: the future caches are not per-instance. After instance 0 defers
an infusion point, instance 1 — on which no operation was performed —
observes the new entry through its own `get_future_ip`, because both
resolve to the same class-level dict; before the operation it observed
nothing. -/
theorem future_ip_cache_shared_across_instances :
    (emptySharedWorld.add_to_future_ip_on 0 sampleIp).get_future_ip_on 1 7 = [sampleIp] ∧
    emptySharedWorld.get_future_ip_on 1 7 = [] :=
  ⟨rfl, rfl⟩

/-- Modelled from the spec: an unfinished block
(src/types/unfinished_block.py is not in src/); only its identity
matters to the initialization path verified here. -/
structure UnfinishedBlockM where
  reward_chain_hash : Nat
  height : Nat
deriving DecidableEq

/-- The attribute dictionary of one `FullNodeStore` instance at
initialization time: the class body (lines 20-33) only annotates these
six names without assigning them, so a fresh instance has none of them
until `create` assigns them one by one; `none` models a name not yet
bound on the instance. (The four class-level caches always exist and are
modelled by `FutureCaches`.) -/
structure FullNodeStoreObj where
  constants : Option ConsensusConstants
  finished_sub_slots : Option (List RingEntry)
  unfinished_blocks : Option (List (Nat × UnfinishedBlockM))
  candidate_blocks : Option (List (Nat × UnfinishedBlockM))
  seen_unfinished_blocks : Option (List Nat)
  disconnected_blocks : Option (List (Nat × FullBlockRec))
deriving DecidableEq

/-- `clear_slots` (lines 144-145) as called during initialization:
`self.finished_sub_slots.clear()` first reads the attribute, raising
`AttributeError` when it was never assigned; otherwise it empties the
list in place. -/
def FullNodeStoreObj.clear_slots (s : FullNodeStoreObj) : Except PyError FullNodeStoreObj :=
  match s.finished_sub_slots with
  | none => .error .attributeError
  | some _ => .ok { s with finished_sub_slots := some [] }

/-- `create` (lines 50-59): build a bare instance (`cls()`, so no
instance attribute is bound), assign `constants`, then call
`clear_slots` — which touches `finished_sub_slots` before anything ever
assigned it — and only afterwards assign the four block tables. -/
def FullNodeStore.create (constants : ConsensusConstants) : Except PyError FullNodeStoreObj :=
  let self0 : FullNodeStoreObj := ⟨none, none, none, none, none, none⟩
  let self1 := { self0 with constants := some constants }
  match self1.clear_slots with
  | .error e => .error e
  | .ok self2 =>
    .ok { self2 with
      unfinished_blocks := some []
      candidate_blocks := some []
      seen_unfinished_blocks := some []
      disconnected_blocks := some [] }

/-- C10: for every consensus-constants argument, `create` raises
`AttributeError` — `clear_slots` calls `self.finished_sub_slots.clear()`
while `finished_sub_slots` is only a class-level annotation, never
assigned before that first access — and so never returns a store. -/
theorem create_always_raises_attribute_error (constants : ConsensusConstants) :
    FullNodeStore.create constants = .error .attributeError :=
  rfl
